import Mathlib

/-!
Shallow embedding of the SI-engine physics core (src/js/engine-physics.js)
of the PV-diagram simulation, over the real numbers, together with proofs
of the specification claims about it.

JavaScript floating-point numbers are modelled by `ℝ`; `Math.pow` is the
real power `Real.rpow`; `Math.sqrt` is `Real.sqrt`; the JS remainder
operator `%` (truncated division, sign of the dividend) is `jsMod`.
-/

namespace EnginePhysics

/-- The engine configuration: the fields assigned in the `EnginePhysics`
constructor (geometry, operating point, ambient state, combustion timing).
`gamma` and the gas constant are fixed constants in the source and are
modelled as top-level definitions below. -/
structure EngineConfig where
  bore : ℝ
  stroke : ℝ
  conRodLength : ℝ
  compressionRatio : ℝ
  rpm : ℝ
  load : ℝ
  maxLoad : ℝ
  ambientPressure : ℝ
  ambientTemperature : ℝ
  ignitionAdvance : ℝ
  combustionDuration : ℝ

/-- Ratio of specific heats for air, `this.gamma = 1.4` in the constructor. -/
def gamma : ℝ := 1.4

/-- Gas constant for air, `this.R = 287` in the constructor (unused by the
pressure formulas). -/
def gasConstantR : ℝ := 287

/-- The default configuration built by the constructor when no parameters
are passed (all `params.x || default` fall through to the defaults). -/
def defaultConfig : EngineConfig where
  bore := 80
  stroke := 110
  conRodLength := 220
  compressionRatio := 8
  rpm := 1857
  load := 11.1
  maxLoad := 20
  ambientPressure := 1.013
  ambientTemperature := 298
  ignitionAdvance := 15
  combustionDuration := 50

/-- The derived quantities cached on the object by
`calculateDerivedValues` (src/js/engine-physics.js lines 41-67). -/
structure DerivedGeometry where
  crankRadius : ℝ
  displacementVolume : ℝ
  displacementVolumeCc : ℝ
  clearanceVolume : ℝ
  clearanceVolumeCc : ℝ
  totalVolume : ℝ
  totalVolumeCc : ℝ
  B_mm : ℝ
  S_mm : ℝ
  L_mm : ℝ
  R_mm : ℝ

/-- `calculateDerivedValues`: recomputes every derived quantity from the
configuration (src/js/engine-physics.js lines 41-67). -/
noncomputable def calculateDerivedValues (c : EngineConfig) : DerivedGeometry :=
  let B := c.bore / 1000
  let S := c.stroke / 1000
  let dispVol := Real.pi * B * B / 4 * S
  let clearVol := dispVol / (c.compressionRatio - 1)
  let totVol := clearVol + dispVol
  { crankRadius := S / 2
    displacementVolume := dispVol
    displacementVolumeCc := dispVol * 1e6
    clearanceVolume := clearVol
    clearanceVolumeCc := clearVol * 1e6
    totalVolume := totVol
    totalVolumeCc := totVol * 1e6
    B_mm := c.bore
    S_mm := c.stroke
    L_mm := c.conRodLength
    R_mm := c.stroke / 2 }

/-- Cached `this.displacementVolume` (m³). -/
noncomputable def displacementVolume (c : EngineConfig) : ℝ :=
  (calculateDerivedValues c).displacementVolume

/-- Cached `this.displacementVolumeCc` (cm³). -/
noncomputable def displacementVolumeCc (c : EngineConfig) : ℝ :=
  (calculateDerivedValues c).displacementVolumeCc

/-- Cached `this.clearanceVolume` (m³). -/
noncomputable def clearanceVolume (c : EngineConfig) : ℝ :=
  (calculateDerivedValues c).clearanceVolume

/-- Cached `this.clearanceVolumeCc` (cm³). -/
noncomputable def clearanceVolumeCc (c : EngineConfig) : ℝ :=
  (calculateDerivedValues c).clearanceVolumeCc

/-- Cached `this.totalVolume` (m³). -/
noncomputable def totalVolume (c : EngineConfig) : ℝ :=
  (calculateDerivedValues c).totalVolume

/-- Cached `this.totalVolumeCc` (cm³). -/
noncomputable def totalVolumeCc (c : EngineConfig) : ℝ :=
  (calculateDerivedValues c).totalVolumeCc

/-- JavaScript truncation toward zero of a real number, as used by the
remainder operator. -/
noncomputable def jsTrunc (x : ℝ) : ℤ :=
  if 0 ≤ x then ⌊x⌋ else ⌈x⌉

/-- The JavaScript remainder `a % b`: `a - b * trunc (a / b)`, carrying the
sign of the dividend. -/
noncomputable def jsMod (a b : ℝ) : ℝ :=
  a - b * jsTrunc (a / b)

/-- The normalization `((theta % 720) + 720) % 720` used by the pressure,
phase, valve and spark queries. -/
noncomputable def norm720 (theta : ℝ) : ℝ :=
  jsMod (jsMod theta 720 + 720) 720

/-- `getVolume`: instantaneous cylinder volume in cm³ as a function of the
crank angle in degrees (src/js/engine-physics.js lines 82-103). -/
noncomputable def getVolume (c : EngineConfig) (theta : ℝ) : ℝ :=
  let thetaRad := theta * Real.pi / 180
  let R := (calculateDerivedValues c).R_mm
  let L := (calculateDerivedValues c).L_mm
  let B := (calculateDerivedValues c).B_mm
  let lambda := R / L
  let sinTheta := Real.sin thetaRad
  let cosTheta := Real.cos thetaRad
  let x := R * (1 - cosTheta) +
    L * (1 - Real.sqrt (1 - lambda * lambda * sinTheta * sinTheta))
  let sweptVolume := Real.pi * B * B / 4 * x
  (calculateDerivedValues c).clearanceVolumeCc + sweptVolume / 1000

/-- `getTheoreticalPressure`: idealized Otto-cycle pressure in bar
(src/js/engine-physics.js lines 110-157). The angle is first normalized to
`[0,720)`; the four strokes are isobaric suction, adiabatic compression,
constant-volume heat addition followed by adiabatic expansion, and isobaric
exhaust. -/
noncomputable def getTheoreticalPressure (c : EngineConfig) (theta : ℝ) : ℝ :=
  let t := norm720 theta
  let V := getVolume c t
  let P_atm := c.ambientPressure
  let loadFactor := 1.5 + 2.0 * (c.load / c.maxLoad)
  if 0 ≤ t ∧ t < 180 then
    P_atm
  else if 180 ≤ t ∧ t < 360 then
    let V_at_180 := getVolume c 180
    P_atm * (V_at_180 / V) ^ gamma
  else if 360 ≤ t ∧ t < 540 then
    let P_compression := P_atm * c.compressionRatio ^ gamma
    let P_peak := P_compression * loadFactor
    let V_at_360 := getVolume c 360
    P_peak * (V_at_360 / V) ^ gamma
  else
    P_atm

/-- Polytropic compression index `n_compression = 1.32` of the actual model. -/
def n_compression : ℝ := 1.32

/-- Polytropic expansion index `n_expansion = 1.28` of the actual model. -/
def n_expansion : ℝ := 1.28

/-- `peakPressureMultiplier` of the actual model
(src/js/engine-physics.js lines 180-186): load raises the peak, rpm away
from the 2000 rpm optimum lowers it. -/
noncomputable def peakPressureMultiplier (c : EngineConfig) : ℝ :=
  let loadFraction := c.load / c.maxLoad
  let rpmNormalized := c.rpm / 2000
  let rpmEfficiency := 1.0 - 0.15 * |rpmNormalized - 1|
  (2.0 + 1.8 * loadFraction) * (0.85 + 0.15 * rpmEfficiency)

/-- The combustion + early-expansion branch of `getActualPressure`, taken
for normalized angles in `[360,400)` (src/js/engine-physics.js lines
227-253). Rising smoothstep to the peak at 372°, falling smoothstep from
the peak toward the polytropic pressure at 400°. -/
noncomputable def combustionPhasePressure (c : EngineConfig) (t : ℝ) : ℝ :=
  let V_TDC := getVolume c 360
  let V_BDC := getVolume c 180
  let P_atm := c.ambientPressure
  let P_compression := P_atm * 0.95 * (V_BDC / V_TDC) ^ n_compression
  let P_peak := P_compression * peakPressureMultiplier c
  let theta_peak : ℝ := 372
  if t ≤ theta_peak then
    let progress := (t - 360) / (theta_peak - 360)
    let smooth := progress * progress * (3 - 2 * progress)
    P_compression + smooth * (P_peak - P_compression)
  else
    let progress := (t - theta_peak) / (400 - theta_peak)
    let V_at_peak := getVolume c theta_peak
    let P_at_400 := P_peak * (V_at_peak / getVolume c 400) ^ n_expansion
    let smooth := progress * progress * (3 - 2 * progress)
    P_peak - smooth * (P_peak - P_at_400)

/-- The expansion/power-stroke branch of `getActualPressure`, taken for
normalized angles in `[400,540)` (src/js/engine-physics.js lines 259-279).
It recomputes the 400° state from scratch, expands polytropically from it,
and past 500° blends 30% toward the exhaust-valve-opening pressure. -/
noncomputable def expansionPhasePressure (c : EngineConfig) (t : ℝ) : ℝ :=
  let V := getVolume c t
  let V_TDC := getVolume c 360
  let V_BDC := getVolume c 180
  let V_at_400 := getVolume c 400
  let V_at_peak := getVolume c 372
  let P_atm := c.ambientPressure
  let P_compression := P_atm * 0.95 * (V_BDC / V_TDC) ^ n_compression
  let P_peak := P_compression * peakPressureMultiplier c
  let P_at_400 := P_peak * (V_at_peak / V_at_400) ^ n_expansion
  let P := P_at_400 * (V_at_400 / V) ^ n_expansion
  if t > 500 then
    let blend := (t - 500) / 40
    let P_evo := P_atm * 1.5
    P * (1 - blend * 0.3) + P_evo * blend * 0.3
  else
    P

/-- `getActualPressure`: empirically tuned six-phase pressure model in bar
(src/js/engine-physics.js lines 166-317). The angle is normalized to
`[0,720)`; the result is floored at 0.1 bar by the final `Math.max`. -/
noncomputable def getActualPressure (c : EngineConfig) (theta : ℝ) : ℝ :=
  let t := norm720 theta
  let V := getVolume c t
  let P_atm := c.ambientPressure
  let P :=
    if 0 ≤ t ∧ t < 180 then
      let strokeProgress := t / 180
      let vacuumDepth := 0.10 + 0.25 * (c.rpm / 4000)
      let vacuumProfile := Real.sin (Real.pi * strokeProgress)
      P_atm * (1 - vacuumDepth * vacuumProfile)
    else if 180 ≤ t ∧ t < 360 then
      let V_BDC := getVolume c 180
      let P_start := P_atm * 0.95
      P_start * (V_BDC / V) ^ n_compression
    else if 360 ≤ t ∧ t < 400 then
      combustionPhasePressure c t
    else if 400 ≤ t ∧ t < 540 then
      expansionPhasePressure c t
    else if 540 ≤ t ∧ t < 600 then
      let progress := (t - 540) / 60
      let smoothDrop := 1 - (1 - progress) ^ (2.5 : ℝ)
      let P_before := P_atm * 2.0
      let P_exhaust := P_atm * 1.15
      P_before - smoothDrop * (P_before - P_exhaust)
    else
      let strokeProgress := (t - 540) / 180
      let exhaustHeight := 0.08 + 0.20 * (c.rpm / 4000)
      let exhaustProfile := Real.sin (Real.pi * strokeProgress)
      P_atm * (1 + exhaustHeight * exhaustProfile)
  max P 0.1

/-- The four stroke phases returned by `getPhase`. -/
inductive Phase where
  | Suction
  | Compression
  | Power
  | Exhaust
  deriving DecidableEq

/-- `getPhase`: stroke phase of a crank angle after normalization to
`[0,720)` (src/js/engine-physics.js lines 350-357). -/
noncomputable def getPhase (theta : ℝ) : Phase :=
  let t := norm720 theta
  if 0 ≤ t ∧ t < 180 then Phase.Suction
  else if 180 ≤ t ∧ t < 360 then Phase.Compression
  else if 360 ≤ t ∧ t < 540 then Phase.Power
  else Phase.Exhaust

/-- `isSparkFiring`: the spark fires in a 10° window starting at the
ignition-advance point before power-stroke TDC
(src/js/engine-physics.js lines 384-388). -/
noncomputable def isSparkFiring (c : EngineConfig) (theta : ℝ) : Prop :=
  let t := norm720 theta
  let sparkStart := 360 - c.ignitionAdvance
  sparkStart ≤ t ∧ t ≤ sparkStart + 10

/-- A partial parameter update handed to `updateParams`: each configurable
field is optionally present, absent fields keep their current value
(the `Object.assign(this, params)` merge). -/
structure EngineParams where
  bore : Option ℝ := none
  stroke : Option ℝ := none
  conRodLength : Option ℝ := none
  compressionRatio : Option ℝ := none
  rpm : Option ℝ := none
  load : Option ℝ := none
  maxLoad : Option ℝ := none
  ambientPressure : Option ℝ := none
  ambientTemperature : Option ℝ := none
  ignitionAdvance : Option ℝ := none
  combustionDuration : Option ℝ := none

/-- The `Object.assign(this, params)` merge of a partial update into a
configuration. -/
def mergeParams (c : EngineConfig) (p : EngineParams) : EngineConfig where
  bore := p.bore.getD c.bore
  stroke := p.stroke.getD c.stroke
  conRodLength := p.conRodLength.getD c.conRodLength
  compressionRatio := p.compressionRatio.getD c.compressionRatio
  rpm := p.rpm.getD c.rpm
  load := p.load.getD c.load
  maxLoad := p.maxLoad.getD c.maxLoad
  ambientPressure := p.ambientPressure.getD c.ambientPressure
  ambientTemperature := p.ambientTemperature.getD c.ambientTemperature
  ignitionAdvance := p.ignitionAdvance.getD c.ignitionAdvance
  combustionDuration := p.combustionDuration.getD c.combustionDuration

/-- The mutable object state: the configuration together with the derived
geometry cached on it. -/
structure EngineState where
  config : EngineConfig
  derived : DerivedGeometry

/-- Builds the state whose cache is freshly recomputed from the
configuration (as the constructor does). -/
noncomputable def mkState (c : EngineConfig) : EngineState :=
  { config := c, derived := calculateDerivedValues c }

/-- `updateParams`: merge the given parameters into the configuration and
recompute every derived value (src/js/engine-physics.js lines 72-75). -/
noncomputable def updateParams (s : EngineState) (p : EngineParams) : EngineState :=
  mkState (mergeParams s.config p)

/-- The signed indicated work of `getPerformanceMetrics`
(src/js/engine-physics.js lines 432-441): the cycle is sampled at 1°
resolution with the actual-pressure model (angles 0,1,...,720) and the
work is the trapezoidal sum of `avgP * dV` over consecutive samples, with
volume converted from cm³ to m³ and pressure from bar to Pa. -/
noncomputable def metricsWork (c : EngineConfig) : ℝ :=
  ∑ i ∈ Finset.range 720,
    ((getActualPressure c ((i : ℝ) + 1) + getActualPressure c (i : ℝ)) / 2 * 1e5) *
      ((getVolume c ((i : ℝ) + 1) - getVolume c (i : ℝ)) * 1e-6)

/-- `imep` of `getPerformanceMetrics` in Pa (line 444). -/
noncomputable def imep (c : EngineConfig) : ℝ :=
  metricsWork c / displacementVolume c

/-- `imepBar` of `getPerformanceMetrics` (line 445). -/
noncomputable def imepBar (c : EngineConfig) : ℝ :=
  imep c / 1e5

/-- `indicatedPower` of `getPerformanceMetrics` in Watts (lines 448-449):
one power stroke per two revolutions. -/
noncomputable def indicatedPower (c : EngineConfig) : ℝ :=
  let cyclesPerSecond := c.rpm / (60 * 2)
  |metricsWork c| * cyclesPerSecond

/-- `thermalEfficiency` of `getPerformanceMetrics` (line 452): the
theoretical Otto-cycle efficiency. -/
noncomputable def thermalEfficiency (c : EngineConfig) : ℝ :=
  1 - (1 / c.compressionRatio) ^ (gamma - 1)

/-- `meanPistonSpeed` of `getPerformanceMetrics` in m/s (line 455). -/
noncomputable def meanPistonSpeed (c : EngineConfig) : ℝ :=
  2 * (c.stroke / 1000) * c.rpm / 60

/-- Left-pads a digit string with zeros up to the requested width. -/
def padZeros (s : String) (d : ℕ) : String :=
  String.mk (List.replicate (d - s.length) '0') ++ s

/-- The JavaScript `Number.prototype.toFixed(d)` on a real value: the
number is scaled by `10^d` and rounded to the nearest integer (ties toward
the larger integer, which is Mathlib's `round`), then printed with `d`
digits after the decimal point. -/
noncomputable def jsToFixed (x : ℝ) (d : ℕ) : String :=
  let n : ℤ := round (x * 10 ^ d)
  let m : ℕ := n.natAbs
  let sign := if n < 0 then "-" else ""
  if d = 0 then
    sign ++ toString m
  else
    sign ++ toString (m / 10 ^ d) ++ "." ++ padZeros (toString (m % 10 ^ d)) d

/-- The record returned by `getPerformanceMetrics`: every field is a
fixed-decimal string. -/
structure PerformanceMetrics where
  displacementVolume : String
  compressionRatio : String
  imep : String
  indicatedPower : String
  thermalEfficiency : String
  meanPistonSpeed : String
  deriving DecidableEq

/-- `getPerformanceMetrics` (src/js/engine-physics.js lines 430-465): the
derived metrics formatted with `toFixed` exactly as the source returns
them (`imep` through `Math.abs`, power in kW, efficiency as a percent). -/
noncomputable def getPerformanceMetrics (c : EngineConfig) : PerformanceMetrics where
  displacementVolume := jsToFixed (displacementVolumeCc c) 1
  compressionRatio := jsToFixed c.compressionRatio 1
  imep := jsToFixed |imepBar c| 2
  indicatedPower := jsToFixed (indicatedPower c / 1000) 2
  thermalEfficiency := jsToFixed (thermalEfficiency c * 100) 1
  meanPistonSpeed := jsToFixed (meanPistonSpeed c) 2

/-! ### Lemmas about the angle normalization -/

lemma jsMod_of_div_nonneg {a b : ℝ} (hb : (0 : ℝ) < b) (h : 0 ≤ a / b) :
    jsMod a b = b * Int.fract (a / b) := by
  unfold jsMod jsTrunc
  rw [if_pos h, Int.fract]
  field_simp

lemma jsMod_of_div_neg {a b : ℝ} (h : a / b < 0) :
    jsMod a b = b * (a / b - ⌈a / b⌉) := by
  have hb : b ≠ 0 := by
    intro hb
    rw [hb] at h
    simp at h
  unfold jsMod jsTrunc
  rw [if_neg (not_le.mpr h)]
  field_simp

lemma jsMod_bounds {a b : ℝ} (hb : (0 : ℝ) < b) :
    -b < jsMod a b ∧ jsMod a b < b := by
  rcases le_or_lt 0 (a / b) with h | h
  · rw [jsMod_of_div_nonneg hb h]
    constructor
    · nlinarith [Int.fract_nonneg (a / b)]
    · nlinarith [Int.fract_lt_one (a / b)]
  · rw [jsMod_of_div_neg h]
    have h1 : a / b ≤ ⌈a / b⌉ := Int.le_ceil _
    have h2 : (⌈a / b⌉ : ℝ) < a / b + 1 := Int.ceil_lt_add_one _
    constructor
    · nlinarith
    · nlinarith

lemma norm720_nonneg (theta : ℝ) : 0 ≤ norm720 theta := by
  unfold norm720
  have h1 := jsMod_bounds (a := theta) (b := 720) (by norm_num)
  have h2 : 0 ≤ (jsMod theta 720 + 720) / 720 :=
    div_nonneg (by linarith [h1.1]) (by norm_num)
  rw [jsMod_of_div_nonneg (by norm_num) h2]
  nlinarith [Int.fract_nonneg ((jsMod theta 720 + 720) / 720)]

lemma norm720_lt (theta : ℝ) : norm720 theta < 720 := by
  unfold norm720
  have h1 := jsMod_bounds (a := theta) (b := 720) (by norm_num)
  have h2 : 0 ≤ (jsMod theta 720 + 720) / 720 :=
    div_nonneg (by linarith [h1.1]) (by norm_num)
  rw [jsMod_of_div_nonneg (by norm_num) h2]
  nlinarith [Int.fract_lt_one ((jsMod theta 720 + 720) / 720)]

lemma norm720_of_mem (theta : ℝ) (h0 : 0 ≤ theta) (h1 : theta < 720) :
    norm720 theta = theta := by
  unfold norm720
  have hq0 : 0 ≤ theta / 720 := by positivity
  have hfloor : ⌊theta / 720⌋ = 0 := by
    rw [Int.floor_eq_zero_iff]
    constructor
    · exact hq0
    · rw [div_lt_one (by norm_num)]
      linarith
  have hinner : jsMod theta 720 = theta := by
    unfold jsMod jsTrunc
    rw [if_pos hq0, hfloor]
    simp
  rw [hinner]
  have hq2 : 0 ≤ (theta + 720) / 720 := by positivity
  have hfloor2 : ⌊(theta + 720) / 720⌋ = 1 := by
    rw [Int.floor_eq_iff]
    push_cast
    constructor
    · rw [le_div_iff₀ (by norm_num : (0:ℝ) < 720)]
      linarith
    · rw [div_lt_iff₀ (by norm_num : (0:ℝ) < 720)]
      linarith
  unfold jsMod jsTrunc
  rw [if_pos hq2, hfloor2]
  push_cast
  ring

/-! ### Lemmas about the volume function -/

/-- The volume function written out with the derived values inlined. -/
lemma getVolume_eq (c : EngineConfig) (theta : ℝ) :
    getVolume c theta =
      Real.pi * (c.bore / 1000) * (c.bore / 1000) / 4 * (c.stroke / 1000) /
          (c.compressionRatio - 1) * 1e6 +
        Real.pi * c.bore * c.bore / 4 *
            (c.stroke / 2 * (1 - Real.cos (theta * Real.pi / 180)) +
              c.conRodLength *
                (1 - Real.sqrt (1 - c.stroke / 2 / c.conRodLength *
                  (c.stroke / 2 / c.conRodLength) *
                  Real.sin (theta * Real.pi / 180) *
                  Real.sin (theta * Real.pi / 180)))) / 1000 :=
  rfl

/-- The cached clearance volume in cm³, written out. -/
lemma clearanceVolumeCc_eq (c : EngineConfig) :
    clearanceVolumeCc c =
      Real.pi * (c.bore / 1000) * (c.bore / 1000) / 4 * (c.stroke / 1000) /
        (c.compressionRatio - 1) * 1e6 :=
  rfl

/-- The cached total volume in cm³, written out. -/
lemma totalVolumeCc_eq (c : EngineConfig) :
    totalVolumeCc c =
      (Real.pi * (c.bore / 1000) * (c.bore / 1000) / 4 * (c.stroke / 1000) /
          (c.compressionRatio - 1) +
        Real.pi * (c.bore / 1000) * (c.bore / 1000) / 4 * (c.stroke / 1000)) * 1e6 :=
  rfl

/-- The cached displacement volume in m³, written out. -/
lemma displacementVolume_eq (c : EngineConfig) :
    displacementVolume c =
      Real.pi * (c.bore / 1000) * (c.bore / 1000) / 4 * (c.stroke / 1000) :=
  rfl

/-- The cached displacement volume in cm³, written out. -/
lemma displacementVolumeCc_eq (c : EngineConfig) :
    displacementVolumeCc c =
      Real.pi * (c.bore / 1000) * (c.bore / 1000) / 4 * (c.stroke / 1000) * 1e6 :=
  rfl

lemma getVolume_at_tdc (c : EngineConfig) {theta : ℝ}
    (hs : Real.sin (theta * Real.pi / 180) = 0)
    (hc : Real.cos (theta * Real.pi / 180) = 1) :
    getVolume c theta = clearanceVolumeCc c := by
  rw [getVolume_eq, hs, hc, clearanceVolumeCc_eq]
  simp only [mul_zero, sub_zero, sub_self, zero_mul]
  rw [Real.sqrt_one]
  ring

lemma getVolume_at_bdc (c : EngineConfig) {theta : ℝ}
    (hs : Real.sin (theta * Real.pi / 180) = 0)
    (hc : Real.cos (theta * Real.pi / 180) = -1) :
    getVolume c theta = totalVolumeCc c := by
  rw [getVolume_eq, hs, hc, totalVolumeCc_eq]
  simp only [mul_zero, sub_zero]
  rw [Real.sqrt_one]
  ring

lemma getVolume_zero (c : EngineConfig) : getVolume c 0 = clearanceVolumeCc c := by
  apply getVolume_at_tdc <;> norm_num

lemma getVolume_360 (c : EngineConfig) : getVolume c 360 = clearanceVolumeCc c := by
  have h : (360 : ℝ) * Real.pi / 180 = 2 * Real.pi := by ring
  apply getVolume_at_tdc <;> rw [h]
  · exact Real.sin_two_pi
  · exact Real.cos_two_pi

lemma getVolume_720 (c : EngineConfig) : getVolume c 720 = clearanceVolumeCc c := by
  have h : (720 : ℝ) * Real.pi / 180 = 2 * Real.pi + 2 * Real.pi := by ring
  apply getVolume_at_tdc <;> rw [h]
  · rw [Real.sin_add_two_pi, Real.sin_two_pi]
  · rw [Real.cos_add_two_pi, Real.cos_two_pi]

lemma getVolume_180 (c : EngineConfig) : getVolume c 180 = totalVolumeCc c := by
  have h : (180 : ℝ) * Real.pi / 180 = Real.pi := by ring
  apply getVolume_at_bdc <;> rw [h]
  · exact Real.sin_pi
  · exact Real.cos_pi

lemma getVolume_540 (c : EngineConfig) : getVolume c 540 = totalVolumeCc c := by
  have h : (540 : ℝ) * Real.pi / 180 = Real.pi + 2 * Real.pi := by ring
  apply getVolume_at_bdc <;> rw [h]
  · rw [Real.sin_add_two_pi, Real.sin_pi]
  · rw [Real.cos_add_two_pi, Real.cos_pi]

lemma getVolume_periodic (c : EngineConfig) (theta : ℝ) :
    getVolume c (theta + 720) = getVolume c theta := by
  rw [getVolume_eq, getVolume_eq]
  have h : (theta + 720) * Real.pi / 180 = theta * Real.pi / 180 + 2 * Real.pi + 2 * Real.pi := by
    ring
  rw [h, Real.sin_add_two_pi, Real.sin_add_two_pi, Real.cos_add_two_pi, Real.cos_add_two_pi]

/-- Bounds for the slider-crank piston displacement: it stays between zero
and the stroke `2R` whenever the rod is longer than the crank radius. -/
lemma sliderCrank_x_bounds (R L s co : ℝ) (hR : 0 < R) (hRL : R < L)
    (hsc : s ^ 2 + co ^ 2 = 1) (hco1 : -1 ≤ co) (hco2 : co ≤ 1) :
    0 ≤ R * (1 - co) + L * (1 - Real.sqrt (1 - R / L * (R / L) * s * s)) ∧
      R * (1 - co) + L * (1 - Real.sqrt (1 - R / L * (R / L) * s * s)) ≤ 2 * R := by
  have hL : 0 < L := lt_trans hR hRL
  have hs1 : s ^ 2 ≤ 1 := by nlinarith [sq_nonneg co]
  have harg : 1 - R / L * (R / L) * s * s = 1 - (R / L) ^ 2 * s ^ 2 := by ring
  have hq1 : (R / L) ^ 2 < 1 := by
    rw [div_pow, div_lt_one (by positivity)]
    nlinarith
  have hprodle : (R / L) ^ 2 * s ^ 2 ≤ (R / L) ^ 2 :=
    mul_le_of_le_one_right (sq_nonneg _) hs1
  have hu0 : 0 ≤ 1 - (R / L) ^ 2 * s ^ 2 := by linarith
  have hu1 : 1 - (R / L) ^ 2 * s ^ 2 ≤ 1 := by nlinarith [sq_nonneg (R / L * s)]
  rw [harg]
  set t : ℝ := Real.sqrt (1 - (R / L) ^ 2 * s ^ 2) with htdef
  have ht0 : 0 ≤ t := Real.sqrt_nonneg _
  have ht1 : t ≤ 1 := Real.sqrt_le_one.mpr hu1
  have ht2 : t ^ 2 = 1 - (R / L) ^ 2 * s ^ 2 := Real.sq_sqrt hu0
  have hLt2 : L ^ 2 * t ^ 2 = L ^ 2 - R ^ 2 * s ^ 2 := by
    rw [ht2]
    field_simp
  constructor
  · have h1 : 0 ≤ R * (1 - co) := by nlinarith
    have h2 : 0 ≤ L * (1 - t) := by nlinarith
    linarith
  · have hkey : L * (1 - t) ≤ R * (1 + co) := by
      have hLt : 0 ≤ L * t := mul_nonneg hL.le ht0
      rcases le_or_lt (L - R - R * co) 0 with hA | hA
      · linarith
      · have hsum : 0 < L * t + (L - R - R * co) := by linarith
        have hP : 0 ≤ 2 * (R * ((1 + co) * (L - R))) := by
          have := mul_nonneg (mul_nonneg hR.le (by linarith : (0:ℝ) ≤ 1 + co))
            (by linarith : (0:ℝ) ≤ L - R)
          nlinarith
        have hkey2 : L ^ 2 * t ^ 2 =
            (L - R - R * co) ^ 2 + 2 * (R * ((1 + co) * (L - R))) := by
          linear_combination hLt2 - R ^ 2 * hsc
        have hsq : (L - R - R * co) ^ 2 ≤ (L * t) ^ 2 := by
          have hLt2b : (L * t) ^ 2 =
              (L - R - R * co) ^ 2 + 2 * (R * ((1 + co) * (L - R))) := by
            rw [mul_pow]
            exact hkey2
          linarith
        nlinarith [hsq, hsum]
    linarith

/-- The volume stays between the clearance volume and the total volume for
every crank angle, for any valid geometry. -/
lemma getVolume_bounds (c : EngineConfig) (hB : 0 < c.bore) (hS : 0 < c.stroke)
    (hCR : 1 < c.compressionRatio) (hRL : c.stroke / 2 < c.conRodLength) (theta : ℝ) :
    clearanceVolumeCc c ≤ getVolume c theta ∧ getVolume c theta ≤ totalVolumeCc c := by
  have hR : 0 < c.stroke / 2 := by positivity
  obtain ⟨hx0, hx2R⟩ := sliderCrank_x_bounds (c.stroke / 2) c.conRodLength
    (Real.sin (theta * Real.pi / 180)) (Real.cos (theta * Real.pi / 180))
    hR hRL (Real.sin_sq_add_cos_sq _) (Real.neg_one_le_cos _) (Real.cos_le_one _)
  set x : ℝ := c.stroke / 2 * (1 - Real.cos (theta * Real.pi / 180)) +
      c.conRodLength * (1 - Real.sqrt (1 - c.stroke / 2 / c.conRodLength *
        (c.stroke / 2 / c.conRodLength) * Real.sin (theta * Real.pi / 180) *
        Real.sin (theta * Real.pi / 180))) with hxdef
  have hVeq : getVolume c theta =
      clearanceVolumeCc c + Real.pi * c.bore * c.bore / 4 * x / 1000 := by
    rw [getVolume_eq, clearanceVolumeCc_eq, hxdef]
  have hcoef : (0:ℝ) ≤ Real.pi * c.bore * c.bore / 4 := by positivity
  constructor
  · rw [hVeq]
    have h1 : 0 ≤ Real.pi * c.bore * c.bore / 4 * x / 1000 :=
      div_nonneg (mul_nonneg hcoef hx0) (by norm_num)
    linarith
  · rw [hVeq, clearanceVolumeCc_eq, totalVolumeCc_eq]
    have h1 : Real.pi * c.bore * c.bore / 4 * x / 1000 ≤
        Real.pi * c.bore * c.bore / 4 * (2 * (c.stroke / 2)) / 1000 := by
      have h2 := mul_le_mul_of_nonneg_left hx2R hcoef
      linarith
    have h3 : Real.pi * c.bore * c.bore / 4 * (2 * (c.stroke / 2)) / 1000 =
        Real.pi * (c.bore / 1000) * (c.bore / 1000) / 4 * (c.stroke / 1000) * 1e6 := by
      ring
    linarith

/-- Every volume is strictly positive for a valid geometry. -/
lemma getVolume_pos (c : EngineConfig) (hB : 0 < c.bore) (hS : 0 < c.stroke)
    (hCR : 1 < c.compressionRatio) (hRL : c.stroke / 2 < c.conRodLength) (theta : ℝ) :
    0 < getVolume c theta := by
  have hcl : 0 < clearanceVolumeCc c := by
    show 0 < Real.pi * (c.bore / 1000) * (c.bore / 1000) / 4 * (c.stroke / 1000) /
      (c.compressionRatio - 1) * 1e6
    have h1 : 0 < c.compressionRatio - 1 := by linarith
    positivity
  exact lt_of_lt_of_le hcl (getVolume_bounds c hB hS hCR hRL theta).1

/-! ### Claim theorems -/

/-- C1: for every configuration with positive bore and stroke, compression
ratio above one and a rod longer than the crank radius, the volume stays in
`[clearanceVolumeCc, totalVolumeCc]` for every crank angle, equals the
clearance volume exactly at 0°, 360° and 720°, equals the total volume
exactly at 180° and 540°, and is periodic with period 720° (exactly, hence
within the 1e-6 floating tolerance). -/
theorem C1_volume_invariants (c : EngineConfig) (hB : 0 < c.bore) (hS : 0 < c.stroke)
    (hCR : 1 < c.compressionRatio) (hRL : c.stroke / 2 < c.conRodLength) :
    (∀ theta : ℝ,
      clearanceVolumeCc c ≤ getVolume c theta ∧ getVolume c theta ≤ totalVolumeCc c) ∧
    getVolume c 0 = clearanceVolumeCc c ∧
    getVolume c 360 = clearanceVolumeCc c ∧
    getVolume c 720 = clearanceVolumeCc c ∧
    getVolume c 180 = totalVolumeCc c ∧
    getVolume c 540 = totalVolumeCc c ∧
    (∀ theta : ℝ, getVolume c (theta + 720) = getVolume c theta ∧
      |getVolume c (theta + 720) - getVolume c theta| ≤ 1e-6) := by
  refine ⟨getVolume_bounds c hB hS hCR hRL, getVolume_zero c, getVolume_360 c,
    getVolume_720 c, getVolume_180 c, getVolume_540 c, fun theta => ?_⟩
  have h := getVolume_periodic c theta
  rw [h]
  norm_num

/-- Witness for C1 at the default configuration. -/
theorem C1_volume_invariants_witness :
    0 < defaultConfig.bore ∧ 0 < defaultConfig.stroke ∧
    1 < defaultConfig.compressionRatio ∧
    defaultConfig.stroke / 2 < defaultConfig.conRodLength ∧
    getVolume defaultConfig 0 = clearanceVolumeCc defaultConfig :=
  ⟨by norm_num [defaultConfig], by norm_num [defaultConfig], by norm_num [defaultConfig],
    by norm_num [defaultConfig],
    (C1_volume_invariants defaultConfig (by norm_num [defaultConfig])
      (by norm_num [defaultConfig]) (by norm_num [defaultConfig])
      (by norm_num [defaultConfig])).2.1⟩

/-- C2: the actual-pressure model never returns less than its explicit
0.1-bar floor, for any configuration and any angle; and the theoretical
model is strictly positive for every valid configuration with positive
ambient pressure. -/
theorem C2_pressure_positive (c : EngineConfig) (hB : 0 < c.bore) (hS : 0 < c.stroke)
    (hCR : 1 < c.compressionRatio) (hRL : c.stroke / 2 < c.conRodLength)
    (hP : 0 < c.ambientPressure) (hload : 0 ≤ c.load) (hmax : 0 < c.maxLoad) :
    (∀ theta : ℝ, 0.1 ≤ getActualPressure c theta) ∧
    (∀ theta : ℝ, 0 < getTheoreticalPressure c theta) := by
  have hV : ∀ th : ℝ, 0 < getVolume c th := getVolume_pos c hB hS hCR hRL
  constructor
  · intro theta
    simp only [getActualPressure]
    exact le_max_right _ _
  · intro theta
    simp only [getTheoreticalPressure]
    split_ifs with h1 h2 h3
    · exact hP
    · exact mul_pos hP
        (Real.rpow_pos_of_pos (div_pos (hV 180) (hV (norm720 theta))) gamma)
    · have hlf : 0 < 1.5 + 2.0 * (c.load / c.maxLoad) := by
        have : 0 ≤ c.load / c.maxLoad := div_nonneg hload hmax.le
        linarith
      have hcr : (0:ℝ) < c.compressionRatio := by linarith
      exact mul_pos
        (mul_pos (mul_pos hP (Real.rpow_pos_of_pos hcr gamma)) hlf)
        (Real.rpow_pos_of_pos (div_pos (hV 360) (hV (norm720 theta))) gamma)
    · exact hP

/-- Witness for C2 at the default configuration. -/
theorem C2_pressure_positive_witness :
    0 < defaultConfig.bore ∧ 0 < defaultConfig.stroke ∧
    1 < defaultConfig.compressionRatio ∧
    defaultConfig.stroke / 2 < defaultConfig.conRodLength ∧
    0 < defaultConfig.ambientPressure ∧ 0 ≤ defaultConfig.load ∧
    0 < defaultConfig.maxLoad ∧
    (∀ theta : ℝ, 0.1 ≤ getActualPressure defaultConfig theta) ∧
    (∀ theta : ℝ, 0 < getTheoreticalPressure defaultConfig theta) :=
  ⟨by norm_num [defaultConfig], by norm_num [defaultConfig], by norm_num [defaultConfig],
    by norm_num [defaultConfig], by norm_num [defaultConfig], by norm_num [defaultConfig],
    by norm_num [defaultConfig],
    (C2_pressure_positive defaultConfig (by norm_num [defaultConfig])
      (by norm_num [defaultConfig]) (by norm_num [defaultConfig])
      (by norm_num [defaultConfig]) (by norm_num [defaultConfig])
      (by norm_num [defaultConfig]) (by norm_num [defaultConfig])).1,
    (C2_pressure_positive defaultConfig (by norm_num [defaultConfig])
      (by norm_num [defaultConfig]) (by norm_num [defaultConfig])
      (by norm_num [defaultConfig]) (by norm_num [defaultConfig])
      (by norm_num [defaultConfig]) (by norm_num [defaultConfig])).2⟩

/-- C6: `getPhase` normalizes to `[0,720)` and the four phases are exactly
the four contiguous half-open intervals, which partition `[0,720)`:
every angle receives exactly one phase. -/
theorem C6_phase_partition (theta : ℝ) :
    (0 ≤ norm720 theta ∧ norm720 theta < 720) ∧
    (getPhase theta = Phase.Suction ↔ norm720 theta ∈ Set.Ico (0:ℝ) 180) ∧
    (getPhase theta = Phase.Compression ↔ norm720 theta ∈ Set.Ico (180:ℝ) 360) ∧
    (getPhase theta = Phase.Power ↔ norm720 theta ∈ Set.Ico (360:ℝ) 540) ∧
    (getPhase theta = Phase.Exhaust ↔ norm720 theta ∈ Set.Ico (540:ℝ) 720) := by
  have h0 := norm720_nonneg theta
  have h720 := norm720_lt theta
  have hphase : getPhase theta =
      (if 0 ≤ norm720 theta ∧ norm720 theta < 180 then Phase.Suction
       else if 180 ≤ norm720 theta ∧ norm720 theta < 360 then Phase.Compression
       else if 360 ≤ norm720 theta ∧ norm720 theta < 540 then Phase.Power
       else Phase.Exhaust) := rfl
  refine ⟨⟨h0, h720⟩, ?_, ?_, ?_, ?_⟩
  · rw [hphase]
    split_ifs with h1 h2 h3
    · exact iff_of_true rfl (Set.mem_Ico.mpr h1)
    · exact iff_of_false (by simp) (fun hm => h1 (Set.mem_Ico.mp hm))
    · exact iff_of_false (by simp) (fun hm => h1 (Set.mem_Ico.mp hm))
    · exact iff_of_false (by simp) (fun hm => h1 (Set.mem_Ico.mp hm))
  · rw [hphase]
    split_ifs with h1 h2 h3
    · exact iff_of_false (by simp)
        (fun hm => by have := Set.mem_Ico.mp hm; linarith [h1.2, this.1])
    · exact iff_of_true rfl (Set.mem_Ico.mpr h2)
    · exact iff_of_false (by simp) (fun hm => h2 (Set.mem_Ico.mp hm))
    · exact iff_of_false (by simp) (fun hm => h2 (Set.mem_Ico.mp hm))
  · rw [hphase]
    split_ifs with h1 h2 h3
    · exact iff_of_false (by simp)
        (fun hm => by have := Set.mem_Ico.mp hm; linarith [h1.2, this.1])
    · exact iff_of_false (by simp)
        (fun hm => by have := Set.mem_Ico.mp hm; linarith [h2.2, this.1])
    · exact iff_of_true rfl (Set.mem_Ico.mpr h3)
    · exact iff_of_false (by simp) (fun hm => h3 (Set.mem_Ico.mp hm))
  · rw [hphase]
    split_ifs with h1 h2 h3
    · exact iff_of_false (by simp)
        (fun hm => by have := Set.mem_Ico.mp hm; linarith [h1.2, this.1])
    · exact iff_of_false (by simp)
        (fun hm => by have := Set.mem_Ico.mp hm; linarith [h2.2, this.1])
    · exact iff_of_false (by simp)
        (fun hm => by have := Set.mem_Ico.mp hm; linarith [h3.2, this.1])
    · have ha : 180 ≤ norm720 theta := by
        by_contra hlt
        push_neg at hlt
        exact h1 ⟨h0, hlt⟩
      have hb : 360 ≤ norm720 theta := by
        by_contra hlt
        push_neg at hlt
        exact h2 ⟨ha, hlt⟩
      have hc : 540 ≤ norm720 theta := by
        by_contra hlt
        push_neg at hlt
        exact h3 ⟨hb, hlt⟩
      exact iff_of_true rfl (Set.mem_Ico.mpr ⟨hc, h720⟩)

/-- C7: the spark fires exactly on the closed window
`[360 - ignitionAdvance, 360 - ignitionAdvance + 10]` of normalized
angles, a window of width exactly 10°, and for the default ignition
advance of 15° the window is `[345, 355]`. -/
theorem C7_spark_window (c : EngineConfig) (theta : ℝ) :
    (isSparkFiring c theta ↔
      360 - c.ignitionAdvance ≤ norm720 theta ∧
        norm720 theta ≤ 360 - c.ignitionAdvance + 10) ∧
    (360 - c.ignitionAdvance + 10) - (360 - c.ignitionAdvance) = 10 ∧
    (isSparkFiring defaultConfig theta ↔ norm720 theta ∈ Set.Icc (345:ℝ) 355) := by
  refine ⟨Iff.rfl, by ring, ?_⟩
  have hadv : defaultConfig.ignitionAdvance = 15 := rfl
  simp only [isSparkFiring, hadv, Set.mem_Icc]
  norm_num

/-- C3: the theoretical model returns exactly the ambient pressure on the
whole suction stroke (in particular at 0°), and on the power stroke it
returns `Ppeak * (V(360)/V(theta))^gamma` with
`Ppeak = ambient * compressionRatio^gamma * (1.5 + 2.0*(load/maxLoad))`,
so at 360° it returns exactly that peak value. -/
theorem C3_theoretical_pressure (c : EngineConfig) (hB : 0 < c.bore) (hS : 0 < c.stroke)
    (hCR : 1 < c.compressionRatio) (hRL : c.stroke / 2 < c.conRodLength) :
    (∀ theta : ℝ, 0 ≤ theta → theta < 180 →
      getTheoreticalPressure c theta = c.ambientPressure) ∧
    getTheoreticalPressure c 0 = c.ambientPressure ∧
    (∀ theta : ℝ, 360 ≤ theta → theta < 540 →
      getTheoreticalPressure c theta =
        c.ambientPressure * c.compressionRatio ^ gamma *
          (1.5 + 2.0 * (c.load / c.maxLoad)) *
          (getVolume c 360 / getVolume c theta) ^ gamma) ∧
    getTheoreticalPressure c 360 =
      c.ambientPressure * c.compressionRatio ^ gamma *
        (1.5 + 2.0 * (c.load / c.maxLoad)) := by
  have hsuction : ∀ theta : ℝ, 0 ≤ theta → theta < 180 →
      getTheoreticalPressure c theta = c.ambientPressure := by
    intro theta h0 h180
    have hnorm : norm720 theta = theta := norm720_of_mem theta h0 (by linarith)
    simp only [getTheoreticalPressure, hnorm]
    rw [if_pos ⟨h0, h180⟩]
  have hpower : ∀ theta : ℝ, 360 ≤ theta → theta < 540 →
      getTheoreticalPressure c theta =
        c.ambientPressure * c.compressionRatio ^ gamma *
          (1.5 + 2.0 * (c.load / c.maxLoad)) *
          (getVolume c 360 / getVolume c theta) ^ gamma := by
    intro theta h360 h540
    have hnorm : norm720 theta = theta :=
      norm720_of_mem theta (by linarith) (by linarith)
    simp only [getTheoreticalPressure, hnorm]
    rw [if_neg (by rintro ⟨-, h⟩; linarith), if_neg (by rintro ⟨-, h⟩; linarith),
      if_pos ⟨h360, h540⟩]
  refine ⟨hsuction, hsuction 0 le_rfl (by norm_num), hpower, ?_⟩
  have h := hpower 360 le_rfl (by norm_num)
  rw [h, div_self (ne_of_gt (getVolume_pos c hB hS hCR hRL 360)), Real.one_rpow, mul_one]

/-- Witness for C3 at the default configuration. -/
theorem C3_theoretical_pressure_witness :
    0 < defaultConfig.bore ∧ 0 < defaultConfig.stroke ∧
    1 < defaultConfig.compressionRatio ∧
    defaultConfig.stroke / 2 < defaultConfig.conRodLength ∧
    getTheoreticalPressure defaultConfig 0 = defaultConfig.ambientPressure ∧
    getTheoreticalPressure defaultConfig 360 =
      defaultConfig.ambientPressure * defaultConfig.compressionRatio ^ gamma *
        (1.5 + 2.0 * (defaultConfig.load / defaultConfig.maxLoad)) := by
  refine ⟨by norm_num [defaultConfig], by norm_num [defaultConfig],
    by norm_num [defaultConfig], by norm_num [defaultConfig], ?_, ?_⟩
  · exact (C3_theoretical_pressure defaultConfig (by norm_num [defaultConfig])
      (by norm_num [defaultConfig]) (by norm_num [defaultConfig])
      (by norm_num [defaultConfig])).2.1
  · exact (C3_theoretical_pressure defaultConfig (by norm_num [defaultConfig])
      (by norm_num [defaultConfig]) (by norm_num [defaultConfig])
      (by norm_num [defaultConfig])).2.2.2

/-- C8: the stored ambient temperature is never read by the physics
queries: two configurations that agree on every field except
`ambientTemperature` produce identical volumes and identical pressures
under both models, at every crank angle. -/
theorem C8_temperature_noninterference (c1 c2 : EngineConfig)
    (hb : c1.bore = c2.bore) (hs : c1.stroke = c2.stroke)
    (hcl : c1.conRodLength = c2.conRodLength)
    (hcr : c1.compressionRatio = c2.compressionRatio)
    (hr : c1.rpm = c2.rpm) (hl : c1.load = c2.load) (hm : c1.maxLoad = c2.maxLoad)
    (hp : c1.ambientPressure = c2.ambientPressure)
    (hi : c1.ignitionAdvance = c2.ignitionAdvance)
    (hd : c1.combustionDuration = c2.combustionDuration) :
    (∀ theta : ℝ, getVolume c1 theta = getVolume c2 theta) ∧
    (∀ theta : ℝ, getTheoreticalPressure c1 theta = getTheoreticalPressure c2 theta) ∧
    (∀ theta : ℝ, getActualPressure c1 theta = getActualPressure c2 theta) := by
  obtain ⟨b1, s1, l1, cr1, r1, ld1, m1, p1, t1, i1, d1⟩ := c1
  obtain ⟨b2, s2, l2, cr2, r2, ld2, m2, p2, t2, i2, d2⟩ := c2
  simp only at hb hs hcl hcr hr hl hm hp hi hd
  subst hb hs hcl hcr hr hl hm hp hi hd
  exact ⟨fun _ => rfl, fun _ => rfl, fun _ => rfl⟩

/-- Witness for C8: the default configuration against the same
configuration with a different ambient temperature. -/
theorem C8_temperature_noninterference_witness :
    (∀ theta : ℝ, getVolume defaultConfig theta =
      getVolume { defaultConfig with ambientTemperature := 350 } theta) ∧
    (∀ theta : ℝ, getTheoreticalPressure defaultConfig theta =
      getTheoreticalPressure { defaultConfig with ambientTemperature := 350 } theta) ∧
    (∀ theta : ℝ, getActualPressure defaultConfig theta =
      getActualPressure { defaultConfig with ambientTemperature := 350 } theta) :=
  C8_temperature_noninterference defaultConfig
    { defaultConfig with ambientTemperature := 350 }
    rfl rfl rfl rfl rfl rfl rfl rfl rfl rfl

lemma getD_getD {α : Type} (o : Option α) (a : α) : o.getD (o.getD a) = o.getD a := by
  cases o <;> rfl

lemma mergeParams_idem (c : EngineConfig) (p : EngineParams) :
    mergeParams (mergeParams c p) p = mergeParams c p := by
  simp only [mergeParams, getD_getD]

/-- C9: `updateParams` is idempotent (the same partial update applied twice
leaves the configuration, the cached derived geometry, and every query
result identical to applying it once), and the derived geometry is a
deterministic function of the geometric configuration fields alone. -/
theorem C9_updateParams_idempotent (s : EngineState) (p : EngineParams) :
    updateParams (updateParams s p) p = updateParams s p ∧
    (∀ theta : ℝ,
      getVolume (updateParams (updateParams s p) p).config theta =
        getVolume (updateParams s p).config theta ∧
      getTheoreticalPressure (updateParams (updateParams s p) p).config theta =
        getTheoreticalPressure (updateParams s p).config theta ∧
      getActualPressure (updateParams (updateParams s p) p).config theta =
        getActualPressure (updateParams s p).config theta ∧
      getPhase theta = getPhase theta) ∧
    getPerformanceMetrics (updateParams (updateParams s p) p).config =
      getPerformanceMetrics (updateParams s p).config ∧
    (∀ c1 c2 : EngineConfig, c1.bore = c2.bore → c1.stroke = c2.stroke →
      c1.conRodLength = c2.conRodLength →
      c1.compressionRatio = c2.compressionRatio →
      calculateDerivedValues c1 = calculateDerivedValues c2) := by
  have hidem : updateParams (updateParams s p) p = updateParams s p := by
    show mkState (mergeParams (mergeParams s.config p) p) = mkState (mergeParams s.config p)
    rw [mergeParams_idem]
  refine ⟨hidem,
    fun theta => ⟨by rw [hidem], by rw [hidem], by rw [hidem], rfl⟩,
    by rw [hidem], ?_⟩
  intro c1 c2 h1 h2 h3 h4
  obtain ⟨b1, s1, l1, cr1, r1, ld1, m1, p1, t1, i1, d1⟩ := c1
  obtain ⟨b2, s2, l2, cr2, r2, ld2, m2, p2, t2, i2, d2⟩ := c2
  simp only at h1 h2 h3 h4
  subst h1 h2 h3 h4
  rfl

/-- Witness for C9: a concrete bore update applied twice to the default
state, and two configurations with equal geometry but different speeds. -/
theorem C9_updateParams_idempotent_witness :
    updateParams (updateParams (mkState defaultConfig) { bore := some 90 })
        { bore := some 90 } =
      updateParams (mkState defaultConfig) { bore := some 90 } ∧
    calculateDerivedValues defaultConfig =
      calculateDerivedValues { defaultConfig with rpm := 3000 } :=
  ⟨(C9_updateParams_idempotent (mkState defaultConfig) { bore := some 90 }).1,
    (C9_updateParams_idempotent (mkState defaultConfig) { bore := some 90 }).2.2.2
      defaultConfig { defaultConfig with rpm := 3000 } rfl rfl rfl rfl⟩

/-- The falling smoothstep segment of the combustion branch, evaluated at
its endpoint 400° (progress = 1), agrees exactly with the value the
expansion branch computes at 400°: the expansion branch recomputes the
400° state with the very same expression, so in exact arithmetic the two
phase formulas meet exactly, for every configuration. -/
lemma combustion_expansion_agree_at_400 (c : EngineConfig) :
    combustionPhasePressure c 400 = expansionPhasePressure c 400 := by
  simp only [combustionPhasePressure, expansionPhasePressure]
  rw [if_neg (by norm_num), if_neg (by norm_num)]
  rcases eq_or_ne (getVolume c 400) 0 with hV | hV
  · rw [hV, div_zero, div_zero, Real.zero_rpow (by norm_num [n_expansion])]
    norm_num
  · rw [div_self hV, Real.one_rpow, mul_one]
    norm_num

/-- C5 (counterexample to the claim as stated): there is no configuration
at which the combustion falling segment evaluated at its endpoint differs
from the expansion phase's independently recomputed value at 400°. -/
theorem C5_no_discontinuity_at_400 :
    ¬ ∃ c : EngineConfig,
      combustionPhasePressure c 400 ≠ expansionPhasePressure c 400 := by
  rintro ⟨c, hne⟩
  exact hne (combustion_expansion_agree_at_400 c)

/-- C5 (amended): the expansion phase does independently recompute the
400° state rather than reusing the combustion phase's endpoint, but the
recomputed expression is identical, so the two branch formulas agree
exactly at 400° for every configuration — the boundary is exactly
continuous in exact arithmetic. -/
theorem C5_six_phase_boundary_continuity (c : EngineConfig) :
    combustionPhasePressure c 400 = expansionPhasePressure c 400 :=
  combustion_expansion_agree_at_400 c

/-- The reported IMEP magnitude is `|work| / displacementVolume`, converted
from Pa to bar. -/
lemma imepBar_abs (c : EngineConfig) (hd : 0 < displacementVolume c) :
    |imepBar c| = |metricsWork c| / displacementVolume c / 1e5 := by
  rw [imepBar, imep, abs_div, abs_div, abs_of_pos hd]
  norm_num

/-- The indicated power in Watts is `|work| * rpm / 120`. -/
lemma indicatedPower_eq (c : EngineConfig) :
    indicatedPower c = |metricsWork c| * (c.rpm / 120) := by
  show |metricsWork c| * (c.rpm / (60 * 2)) = |metricsWork c| * (c.rpm / 120)
  norm_num

/-- The Otto-cycle efficiency `1 - (1/r)^(gamma-1)` equals
`1 - r^(1-gamma)` for positive compression ratio. -/
lemma thermalEfficiency_rpow (c : EngineConfig) (hcr : 0 < c.compressionRatio) :
    thermalEfficiency c = 1 - c.compressionRatio ^ ((1:ℝ) - gamma) := by
  rw [thermalEfficiency, one_div, Real.inv_rpow hcr.le, ← Real.rpow_neg hcr.le,
    neg_sub]

/-- The default mean piston speed, exactly. -/
lemma meanPistonSpeed_default : meanPistonSpeed defaultConfig = 6.809 := by
  show 2 * ((110:ℝ) / 1000) * 1857 / 60 = 6.809
  norm_num

/-- The default thermal efficiency in the claim's closed form. -/
lemma thermalEfficiency_default :
    thermalEfficiency defaultConfig = 1 - (8:ℝ) ^ (-(0.4:ℝ)) := by
  rw [thermalEfficiency_rpow defaultConfig (by norm_num [defaultConfig])]
  have h8 : defaultConfig.compressionRatio = (8:ℝ) := rfl
  have hg : (1:ℝ) - gamma = -(0.4:ℝ) := by norm_num [gamma]
  rw [h8, hg]

/-- C4: the performance metrics are computed from the 1°-sampled
actual-pressure cycle by the trapezoidal rule, and satisfy the stated
closed forms: IMEP magnitude `|work|/displacementVolume` converted to bar,
indicated power `|work| * rpm/120` Watts, Otto-cycle efficiency
`1 - compressionRatio^(1-gamma)`, mean piston speed `2*stroke*rpm/60`;
on the default configuration the efficiency is exactly `1 - 8^(-0.4)` and
the mean piston speed is 6.809 m/s, i.e. about 6.81 m/s. -/
theorem C4_performance_metrics (c : EngineConfig) (hd : 0 < displacementVolume c)
    (hcr : 0 < c.compressionRatio) :
    metricsWork c = ∑ i ∈ Finset.range 720,
      ((getActualPressure c ((i : ℝ) + 1) + getActualPressure c (i : ℝ)) / 2 * 1e5) *
        ((getVolume c ((i : ℝ) + 1) - getVolume c (i : ℝ)) * 1e-6) ∧
    |imepBar c| = |metricsWork c| / displacementVolume c / 1e5 ∧
    indicatedPower c = |metricsWork c| * (c.rpm / 120) ∧
    thermalEfficiency c = 1 - c.compressionRatio ^ ((1:ℝ) - gamma) ∧
    meanPistonSpeed c = 2 * (c.stroke / 1000) * c.rpm / 60 ∧
    thermalEfficiency defaultConfig = 1 - (8:ℝ) ^ (-(0.4:ℝ)) ∧
    meanPistonSpeed defaultConfig = 6.809 ∧
    |meanPistonSpeed defaultConfig - 6.81| < 0.01 := by
  refine ⟨rfl, imepBar_abs c hd, indicatedPower_eq c, thermalEfficiency_rpow c hcr,
    rfl, thermalEfficiency_default, meanPistonSpeed_default, ?_⟩
  rw [meanPistonSpeed_default,
    show (6.809:ℝ) - 6.81 = -(0.001) by norm_num, abs_neg,
    abs_of_nonneg (by norm_num)]
  norm_num

/-- Witness for C4 at the default configuration. -/
theorem C4_performance_metrics_witness :
    0 < displacementVolume defaultConfig ∧ 0 < defaultConfig.compressionRatio ∧
    thermalEfficiency defaultConfig = 1 - (8:ℝ) ^ (-(0.4:ℝ)) ∧
    meanPistonSpeed defaultConfig = 6.809 :=
  ⟨by simp only [displacementVolume_eq, defaultConfig]; positivity,
    by norm_num [defaultConfig],
    (C4_performance_metrics defaultConfig
      (by simp only [displacementVolume_eq, defaultConfig]; positivity)
      (by norm_num [defaultConfig])).2.2.2.2.2.1,
    (C4_performance_metrics defaultConfig
      (by simp only [displacementVolume_eq, defaultConfig]; positivity)
      (by norm_num [defaultConfig])).2.2.2.2.2.2.1⟩

/-- C10: every field of `getPerformanceMetrics` is a fixed-decimal string:
displacement volume, compression ratio and thermal efficiency to one
decimal place, IMEP, indicated power and mean piston speed to two;
the IMEP field is the absolute IMEP in bar, the power field is in kW, and
the efficiency field is a percentage. -/
theorem C10_metrics_strings (c : EngineConfig) (hd : 0 < displacementVolume c)
    (hcr : 0 < c.compressionRatio) :
    getPerformanceMetrics c =
      { displacementVolume := jsToFixed (displacementVolumeCc c) 1
        compressionRatio := jsToFixed c.compressionRatio 1
        imep := jsToFixed (|metricsWork c| / displacementVolume c / 1e5) 2
        indicatedPower := jsToFixed (|metricsWork c| * (c.rpm / 120) / 1000) 2
        thermalEfficiency :=
          jsToFixed ((1 - c.compressionRatio ^ ((1:ℝ) - gamma)) * 100) 1
        meanPistonSpeed := jsToFixed (2 * (c.stroke / 1000) * c.rpm / 60) 2 } := by
  unfold getPerformanceMetrics
  rw [imepBar_abs c hd, indicatedPower_eq c, thermalEfficiency_rpow c hcr]
  rfl

/-- Witness for C10 at the default configuration. -/
theorem C10_metrics_strings_witness :
    0 < displacementVolume defaultConfig ∧ 0 < defaultConfig.compressionRatio ∧
    getPerformanceMetrics defaultConfig =
      { displacementVolume := jsToFixed (displacementVolumeCc defaultConfig) 1
        compressionRatio := jsToFixed defaultConfig.compressionRatio 1
        imep := jsToFixed
          (|metricsWork defaultConfig| / displacementVolume defaultConfig / 1e5) 2
        indicatedPower := jsToFixed
          (|metricsWork defaultConfig| * (defaultConfig.rpm / 120) / 1000) 2
        thermalEfficiency := jsToFixed
          ((1 - defaultConfig.compressionRatio ^ ((1:ℝ) - gamma)) * 100) 1
        meanPistonSpeed := jsToFixed
          (2 * (defaultConfig.stroke / 1000) * defaultConfig.rpm / 60) 2 } :=
  ⟨by simp only [displacementVolume_eq, defaultConfig]; positivity,
    by norm_num [defaultConfig],
    C10_metrics_strings defaultConfig
      (by simp only [displacementVolume_eq, defaultConfig]; positivity)
      (by norm_num [defaultConfig])⟩

end EnginePhysics
